import Mathlib

/-!
# lchsk/monitor: the certificate-expiry cycle of `main.go`

A shallow embedding of `SendEmail` and `CheckSSL` from `main.go`.

The Go code is sequential and effectful.  Effects are made explicit:

* the outside world (TLS handshakes, the wall clock, the SMTP server, the
  `%v` rendering of a `time.Time`) is an `Env` of oracles, indexed by the
  number of earlier calls, so that two calls with the same arguments may
  answer differently;
* the process is a `World`: the chronological list of observable events, the
  three call counters, and whether the process is still running.
  `log.Fatal` and a nil-pointer dereference stop the process; every loop
  stops iterating as soon as the process has stopped.

`time.Time` is modelled as Go stores a wall-clock time: a signed 64-bit
count of seconds since January 1 of year 1, and the nanoseconds within the
second.  `AddDate(0, 0, days)` is modelled with the 64-bit arithmetic of
`time.Date`, which wraps around, for a local zone with a fixed offset from
UTC (such as UTC itself): there the zone offset that is added to get the
calendar date is the one that is taken off again, and moving the calendar
day by `days` moves the seconds by `days` times 86400 modulo `2^64`.  Zones
whose offset changes over the year are outside the model.
-/

namespace Monitor

/-! ## Library types -/

/-- Go's `unixToInternal`: the seconds from January 1 of year 1 to the Unix
epoch. -/
def unixToInternal : Int := 62135596800

/-- The integer a 64-bit word stands for when read as signed: what Go's
`int64` and `uint64` arithmetic keeps of the integer `x`. -/
def wrapInt64 (x : Int) : Int :=
  (x + 9223372036854775808) % 18446744073709551616 - 9223372036854775808

/-- Go `time.Time` as a wall-clock time: `sec` is Go's `t.sec()`, the
seconds since January 1 of year 1 held in an `int64`, and `nsec` is Go's
`t.nsec()`.  The monotonic reading of `time.Now()` is left out: `AddDate`
drops it, so the comparison of line 69 never uses it. -/
structure Time where
  sec : Int
  nsec : Int
  sec_int64 : -9223372036854775808 ≤ sec ∧ sec < 9223372036854775808
  nsec_range : 0 ≤ nsec ∧ nsec < 1000000000
  deriving DecidableEq

/-- Go's `secondsPerDay`. -/
def secondsPerDay : Int := 86400

/-- Nanoseconds in one day of 24 hours. -/
def nanosPerDay : Int := 86400 * 1000000000

/-- Go `t.AddDate(0, 0, days)`: the only way `main.go` calls `AddDate` is
with `years = 0` and `months = 0`.  Go splits `t` into date and clock, adds
`days` to the day of the month and rebuilds the time with `time.Date`, whose
day count and seconds are 64-bit words: the seconds of the result are those
of `t` plus `days` times 86400, wrapped to an `int64`.  The nanoseconds are
kept. -/
def Time.AddDate (t : Time) (days : Int) : Time :=
  { sec := wrapInt64 (t.sec + days * secondsPerDay)
    nsec := t.nsec
    sec_int64 := by unfold wrapInt64; omega
    nsec_range := t.nsec_range }

/-- Go `t.After(u)` for wall-clock times:
`ts > us || ts == us && t.nsec() > u.nsec()`. -/
def Time.After (t u : Time) : Bool :=
  decide (t.sec > u.sec) || (decide (t.sec = u.sec) && decide (t.nsec > u.nsec))

/-- The instant of `t` as one number: the nanoseconds from the Unix epoch to
`t`, as an integer that does not wrap. -/
def Time.unixNano (t : Time) : Int :=
  (t.sec - unixToInternal) * 1000000000 + t.nsec

/-- Whether `t` plus `days` days is within the seconds an `int64` can hold,
so that `AddDate(0, 0, days)` does not wrap. -/
def Time.AddDateFits (t : Time) (days : Int) : Prop :=
  -9223372036854775808 ≤ t.sec + days * secondsPerDay
    ∧ t.sec + days * secondsPerDay < 9223372036854775808

instance (t : Time) (days : Int) : Decidable (t.AddDateFits days) := by
  unfold Time.AddDateFits
  infer_instance

/-- Go `time.Unix(sec, nsec)`: the time `sec` seconds and `nsec` nanoseconds
after the Unix epoch. -/
def Unix (sec nsec : Int) : Time :=
  { sec := wrapInt64 (sec + nsec / 1000000000 + unixToInternal)
    nsec := nsec % 1000000000
    sec_int64 := by unfold wrapInt64; omega
    nsec_range := by omega }

/-- Go `x509.Certificate`; `NotAfter` is the only field `main.go` reads. -/
structure Certificate where
  NotAfter : Time
  deriving DecidableEq

/-- Go `tls.ConnectionState`; `VerifiedChains` is the only field read. -/
structure ConnectionState where
  VerifiedChains : List (List Certificate)
  deriving DecidableEq

/-- The value `smtp.PlainAuth(identity, username, password, host)` builds. -/
structure PlainAuth where
  identity : String
  username : String
  password : String
  host : String
  deriving DecidableEq

/-! ## Types of `main.go` -/

structure Alert where
  Email : String
  deriving DecidableEq

/-- The `ssl_check` section.  `DaysBeforeWarning` is a Go `int`, a 64-bit
word; it is used only as the `days` of `AddDate`, which keeps of any integer
what 64-bit arithmetic keeps of it. -/
structure SSLCheck where
  Hosts : List String
  DaysBeforeWarning : Int
  deriving DecidableEq

structure Account where
  Server : String
  Port : Int
  Email : String
  Password : String
  deriving DecidableEq

structure Config where
  Account : Account
  Alert : Alert
  SSLCheck : SSLCheck
  deriving DecidableEq

structure Email where
  To : String
  Subject : String
  Body : String
  deriving DecidableEq

/-! ## Effects -/

/-- The arguments of one `smtp.SendMail(addr, auth, from, to, msg)` call. -/
structure SendMailCall where
  addr : String
  auth : PlainAuth
  sender : String
  to_ : List String
  msg : String
  deriving DecidableEq

/-- Why the process stopped. -/
inductive Halt where
  /-- Stopped by `log.Fatal`, which ends in `os.Exit(1)`. -/
  | exit1
  /-- Stopped by the run-time panic of a nil pointer dereference. -/
  | nilDereference
  deriving DecidableEq

/-- What the process does that can be observed, in the order it happens. -/
inductive Event where
  /-- Text written to standard output by `fmt.Printf` or `fmt.Println`. -/
  | stdout (text : String)
  /-- One `tls.Dial("tcp", addr, ...)`, and whether it gave a connection. -/
  | tlsDial (addr : String) (connected : Bool)
  /-- One call `SendEmail(sender, email)`. -/
  | sendEmail (sender : Account) (email : Email)
  /-- One `smtp.SendMail` call and the error it returned (`none` is nil). -/
  | smtpSendMail (call : SendMailCall) (err : Option String)
  /-- The message of a `log.Fatal`, without the date and time that the
  standard logger writes in front of it. -/
  | logFatal (text : String)
  deriving DecidableEq

/-- The outside world.  The first argument of `tlsDial`, `timeNow` and
`smtpSendMail` is the number of earlier calls of that function. -/
structure Env where
  /-- Outcome of `tls.Dial("tcp", host, &tls.Config{})`: `none` when the dial
  returns an error, and with it a nil connection. -/
  tlsDial : Nat → String → Option ConnectionState
  /-- Reading of `time.Now()`. -/
  timeNow : Nat → Time
  /-- Error returned by `smtp.SendMail`; `none` is the nil error. -/
  smtpSendMail : Nat → SendMailCall → Option String
  /-- The `%v` rendering of a `time.Time`. -/
  formatTime : Time → String

/-- The state of the process. -/
structure World where
  trace : List Event
  dials : Nat
  clockReads : Nat
  sends : Nat
  halted : Option Halt
  deriving DecidableEq

/-- Append one event to the trace. -/
def World.emit (w : World) (e : Event) : World :=
  { w with trace := w.trace ++ [e] }

/-- Go `fmt.Printf` and `fmt.Println`, with the text already formatted. -/
def World.print (w : World) (text : String) : World :=
  w.emit (Event.stdout text)

/-- Stop the process. -/
def World.halt (w : World) (h : Halt) : World :=
  { w with halted := some h }

/-! ## `SendEmail` (main.go, lines 45-57) -/

def SendEmail (env : Env) (sender : Account) (email : Email) (w : World) : World :=
  let w := w.emit (Event.sendEmail sender email)
  let auth : PlainAuth :=
    { identity := "", username := sender.Email, password := sender.Password,
      host := sender.Server }
  let to_ := [email.To]
  let body := "To: " ++ email.To ++ "\r\nSubject: " ++ email.Subject ++ "\r\n\r\n" ++ email.Body
  let call : SendMailCall :=
    { addr := sender.Server ++ ":" ++ toString sender.Port, auth := auth,
      sender := sender.Email, to_ := to_, msg := body }
  let err := env.smtpSendMail w.sends call
  let w := { w.emit (Event.smtpSendMail call err) with sends := w.sends + 1 }
  match err with
  | some e => (w.emit (Event.logFatal ("fail: " ++ e))).halt Halt.exit1
  | none => w.print "Email sent\n"

/-! ## `CheckSSL` (main.go, lines 59-85) -/

/-- The condition of the `if` on line 69. -/
def expiresSoon (conf : Config) (now : Time) (cert : Certificate) : Bool :=
  (now.AddDate conf.SSLCheck.DaysBeforeWarning).After cert.NotAfter

/-- The email built on lines 72-76. -/
def alertEmail (env : Env) (conf : Config) (host : String) (cert : Certificate) : Email :=
  { To := conf.Alert.Email
    Subject := "SSL Certificate for " ++ host ++ " expires soon - " ++ env.formatTime cert.NotAfter
    Body := "" }

/-- Body of the loop over the certificates of a chain (lines 69-81). -/
def checkCert (env : Env) (conf : Config) (host : String) (now : Time)
    (cert : Certificate) (w : World) : World :=
  if expiresSoon conf now cert then
    let w := w.print ("=== SSL expires soon, expires: " ++ env.formatTime cert.NotAfter ++ " ===\n")
    let email := alertEmail env conf host cert
    SendEmail env conf.Account email w
  else
    w.print ("SSL ok, expires: " ++ env.formatTime cert.NotAfter ++ "\n")

/-- The loop `for _, cert := range chain` (lines 68-82). -/
def certLoop (env : Env) (conf : Config) (host : String) (now : Time) :
    List Certificate → World → World
  | [], w => w
  | cert :: rest, w =>
    let w := checkCert env conf host now cert w
    match w.halted with
    | some _ => w
    | none => certLoop env conf host now rest w

/-- The loop `for _, chain := range ...VerifiedChains` (lines 67-83). -/
def chainLoop (env : Env) (conf : Config) (host : String) (now : Time) :
    List (List Certificate) → World → World
  | [], w => w
  | chain :: rest, w =>
    let w := certLoop env conf host now chain w
    match w.halted with
    | some _ => w
    | none => chainLoop env conf host now rest w

/-- Body of the loop over the hosts (lines 61-83). -/
def checkHost (env : Env) (conf : Config) (host : String) (w : World) : World :=
  let w := w.print ("Checking SSL for " ++ host ++ "\n")
  -- conn2, _ := tls.Dial("tcp", host, &tls.Config{})
  let conn2 := env.tlsDial w.dials host
  let w := { w.emit (Event.tlsDial host conn2.isSome) with dials := w.dials + 1 }
  -- now := time.Now()
  let now := env.timeNow w.clockReads
  let w := { w with clockReads := w.clockReads + 1 }
  -- conn2.ConnectionState() dereferences conn2
  match conn2 with
  | none => w.halt Halt.nilDereference
  | some state => chainLoop env conf host now state.VerifiedChains w

/-- The loop `for _, host := range conf.SSLCheck.Hosts` (lines 60-84). -/
def hostLoop (env : Env) (conf : Config) : List String → World → World
  | [], w => w
  | host :: rest, w =>
    let w := checkHost env conf host w
    match w.halted with
    | some _ => w
    | none => hostLoop env conf rest w

def CheckSSL (env : Env) (conf : Config) (w : World) : World :=
  hostLoop env conf conf.SSLCheck.Hosts w

/-! ## Reading a trace -/

/-- The `SendEmail` calls of a trace, in order. -/
def sendEmailCalls : List Event → List (Account × Email)
  | [] => []
  | Event.sendEmail sender email :: rest => (sender, email) :: sendEmailCalls rest
  | _ :: rest => sendEmailCalls rest

/-- The alerts of a process so far: its `SendEmail` calls. -/
def World.alerts (w : World) : List (Account × Email) :=
  sendEmailCalls w.trace

/-- A process that has done nothing yet. -/
def World.start : World :=
  { trace := [], dials := 0, clockReads := 0, sends := 0, halted := none }

/-! ## The alerts a cycle is expected to send -/

/-- The alert `CheckSSL` hands to `SendEmail` for `cert` while checking
`host`: the sender account and the email of lines 72-76. -/
def alertFor (env : Env) (conf : Config) (host : String) (cert : Certificate) :
    Account × Email :=
  (conf.Account, alertEmail env conf host cert)

/-- The chain walk as a pipeline: concatenate the chains in order, keep the
certificates that pass the test of line 69, render each as an alert. -/
def flattenThenFilter (env : Env) (conf : Config) (host : String) (now : Time)
    (chains : List (List Certificate)) : List (Account × Email) :=
  (chains.flatten.filter (expiresSoon conf now)).map (alertFor env conf host)

/-- The alert sequence of one host, checked with the dial numbered `dialIx`
and the clock reading numbered `clockIx`. -/
def hostAlerts (env : Env) (conf : Config) (dialIx clockIx : Nat) (host : String) :
    List (Account × Email) :=
  match env.tlsDial dialIx host with
  | none => []
  | some state => flattenThenFilter env conf host (env.timeNow clockIx) state.VerifiedChains

/-- The alert sequences of the hosts, concatenated in the order of the list;
the first host is checked with dial `dialIx` and clock reading `clockIx`. -/
def cycleAlerts (env : Env) (conf : Config) : Nat → Nat → List String → List (Account × Email)
  | _, _, [] => []
  | dialIx, clockIx, host :: rest =>
    hostAlerts env conf dialIx clockIx host ++ cycleAlerts env conf (dialIx + 1) (clockIx + 1) rest

/-- The alerts `checkHost` sends for `host` when it is run on its own, as
the dial numbered `dialIx` with the clock reading numbered `clockIx`. -/
def ownAlerts (env : Env) (conf : Config) (dialIx clockIx : Nat) (host : String) :
    List (Account × Email) :=
  (checkHost env conf host { World.start with dials := dialIx, clockReads := clockIx }).alerts

/-- The own alert sequences of the hosts, concatenated in the order of the
list. -/
def inConfigurationOrder (env : Env) (conf : Config) :
    Nat → Nat → List String → List (Account × Email)
  | _, _, [] => []
  | dialIx, clockIx, host :: rest =>
    ownAlerts env conf dialIx clockIx host
      ++ inConfigurationOrder env conf (dialIx + 1) (clockIx + 1) rest

/-- One certificate occurrence of a cycle: a certificate at one place of one
verified chain of a host, with the clock reading taken for that host. -/
structure Occurrence where
  host : String
  now : Time
  cert : Certificate

/-- The certificate occurrences of a cycle, in the order `CheckSSL` walks
them: host after host, chain after chain, certificate after certificate.
The first host is checked with dial `dialIx` and clock reading `clockIx`. -/
def occurrences (env : Env) : Nat → Nat → List String → List Occurrence
  | _, _, [] => []
  | dialIx, clockIx, host :: rest =>
    (match env.tlsDial dialIx host with
      | none => []
      | some state =>
        state.VerifiedChains.flatten.map
          (fun cert => { host := host, now := env.timeNow clockIx, cert := cert }))
      ++ occurrences env (dialIx + 1) (clockIx + 1) rest

/-- The configuration `conf` with `DaysBeforeWarning` set to `days`. -/
def Config.withDays (conf : Config) (days : Int) : Config :=
  { conf with SSLCheck := { conf.SSLCheck with DaysBeforeWarning := days } }

/-- Whether an event is an `smtp.SendMail` call that returned an error. -/
def Event.isFailedSend : Event → Bool
  | Event.smtpSendMail _ (some _) => true
  | _ => false

/-- How the execution from `w` to `w'` stands with failed sends: either no
send failed and the process was not stopped by `log.Fatal`, or the process
was stopped by `log.Fatal` and the last two events are the one failed send
and its `log.Fatal`. -/
def FailStop (w w' : World) : Prop :=
  ∃ new, w'.trace = w.trace ++ new
    ∧ ((w'.halted ≠ some Halt.exit1 ∧ ∀ e ∈ new, Event.isFailedSend e = false)
      ∨ (w'.halted = some Halt.exit1
          ∧ ∃ pre call err,
              new = pre ++ [Event.smtpSendMail call (some err),
                            Event.logFatal ("fail: " ++ err)]
                ∧ ∀ e ∈ pre, Event.isFailedSend e = false))

/-! ## Concrete data for the scenarios -/

/-- The instant `n` days after the Unix epoch, at midnight UTC.
Day 19723 is 2024-01-01, day 19724 is 2024-01-02, day 19742 is 2024-01-20. -/
def day (n : Int) : Time :=
  Unix (n * 86400) 0

def demoAccount : Account :=
  { Server := "smtp.example.org", Port := 587, Email := "monitor@example.org",
    Password := "secret" }

def demoConf (hosts : List String) (days : Int) : Config :=
  { Account := demoAccount, Alert := { Email := "ops@example.org" },
    SSLCheck := { Hosts := hosts, DaysBeforeWarning := days } }

/-- An outside world whose clock always reads `now`, whose dials answer
`dial`, and whose `n`-th send returns the error `smtp n`. -/
def demoEnv (dial : Nat → String → Option ConnectionState) (now : Time)
    (smtp : Nat → Option String) : Env :=
  { tlsDial := dial, timeNow := fun _ => now, smtpSendMail := fun n _ => smtp n,
    formatTime := fun t => toString t.unixNano }

/-- Every dial connects and presents the chains `chains`. -/
def dialAlways (chains : List (List Certificate)) : Nat → String → Option ConnectionState :=
  fun _ _ => some { VerifiedChains := chains }

/-- Every send succeeds. -/
def smtpOk : Nat → Option String :=
  fun _ => none

/-- The first send fails, the later ones succeed. -/
def smtpFirstFails : Nat → Option String :=
  fun n => if n = 0 then some "connection refused" else none

/-- The first dial fails, the later ones connect and present `chains`. -/
def dialFirstFails (chains : List (List Certificate)) :
    Nat → String → Option ConnectionState :=
  fun i _ => if i = 0 then none else some { VerifiedChains := chains }

/-- The `smtp.SendMail` call `SendEmail` makes for the alert of
`example.org:443` and a certificate that expires on 2024-01-02. -/
def demoCall : SendMailCall :=
  { addr := "smtp.example.org:587",
    auth := { identity := "", username := "monitor@example.org", password := "secret",
              host := "smtp.example.org" },
    sender := "monitor@example.org", to_ := ["ops@example.org"],
    msg := "To: ops@example.org\r\nSubject: SSL Certificate for example.org:443 expires soon - 1704153600000000000\r\n\r\n" }

/-! ## Basic facts -/

theorem sendEmailCalls_append (a b : List Event) :
    sendEmailCalls (a ++ b) = sendEmailCalls a ++ sendEmailCalls b := by
  induction a with
  | nil => rfl
  | cons e a ih => cases e <;> simp [sendEmailCalls, ih]

/-- When `smtp.SendMail` returns nil, `SendEmail` records the call, the send
and the line `Email sent`, and returns. -/
theorem SendEmail_ok (env : Env) (sender : Account) (email : Email) (w : World)
    (hs : ∀ n c, env.smtpSendMail n c = none) :
    (SendEmail env sender email w).halted = w.halted
      ∧ (SendEmail env sender email w).dials = w.dials
      ∧ (SendEmail env sender email w).clockReads = w.clockReads
      ∧ (SendEmail env sender email w).alerts = w.alerts ++ [(sender, email)] := by
  simp [SendEmail, hs, World.emit, World.print, World.alerts, sendEmailCalls_append,
    sendEmailCalls]

theorem checkCert_ok (env : Env) (conf : Config) (host : String) (now : Time)
    (cert : Certificate) (w : World) (hs : ∀ n c, env.smtpSendMail n c = none) :
    (checkCert env conf host now cert w).halted = w.halted
      ∧ (checkCert env conf host now cert w).dials = w.dials
      ∧ (checkCert env conf host now cert w).clockReads = w.clockReads
      ∧ (checkCert env conf host now cert w).alerts
          = w.alerts ++ (if expiresSoon conf now cert then [alertFor env conf host cert] else []) := by
  unfold checkCert
  by_cases h : expiresSoon conf now cert = true
  · simp only [h, if_true]
    have := SendEmail_ok env conf.Account (alertEmail env conf host cert)
      (w.print ("=== SSL expires soon, expires: " ++ env.formatTime cert.NotAfter ++ " ===\n")) hs
    simpa [World.print, World.emit, World.alerts, sendEmailCalls_append, sendEmailCalls,
      alertFor] using this
  · simp [h, World.print, World.emit, World.alerts, sendEmailCalls_append, sendEmailCalls]

theorem certLoop_ok (env : Env) (conf : Config) (host : String) (now : Time)
    (hs : ∀ n c, env.smtpSendMail n c = none) (chain : List Certificate) :
    ∀ w : World, w.halted = none →
      (certLoop env conf host now chain w).halted = none
        ∧ (certLoop env conf host now chain w).dials = w.dials
        ∧ (certLoop env conf host now chain w).clockReads = w.clockReads
        ∧ (certLoop env conf host now chain w).alerts
            = w.alerts ++ (chain.filter (expiresSoon conf now)).map (alertFor env conf host) := by
  induction chain with
  | nil => intro w hw; simp [certLoop, hw]
  | cons cert rest ih =>
    intro w hw
    obtain ⟨h1, h2, h3, h4⟩ := checkCert_ok env conf host now cert w hs
    have hrun : (checkCert env conf host now cert w).halted = none := by rw [h1, hw]
    obtain ⟨i1, i2, i3, i4⟩ := ih _ hrun
    simp only [certLoop, hrun]
    refine ⟨i1, by rw [i2, h2], by rw [i3, h3], ?_⟩
    rw [i4, h4]
    by_cases h : expiresSoon conf now cert = true <;> simp [h, List.filter_cons]

theorem chainLoop_ok (env : Env) (conf : Config) (host : String) (now : Time)
    (hs : ∀ n c, env.smtpSendMail n c = none) (chains : List (List Certificate)) :
    ∀ w : World, w.halted = none →
      (chainLoop env conf host now chains w).halted = none
        ∧ (chainLoop env conf host now chains w).dials = w.dials
        ∧ (chainLoop env conf host now chains w).clockReads = w.clockReads
        ∧ (chainLoop env conf host now chains w).alerts
            = w.alerts ++ flattenThenFilter env conf host now chains := by
  induction chains with
  | nil => intro w hw; simp [chainLoop, hw, flattenThenFilter]
  | cons chain rest ih =>
    intro w hw
    obtain ⟨h1, h2, h3, h4⟩ := certLoop_ok env conf host now hs chain w hw
    obtain ⟨i1, i2, i3, i4⟩ := ih _ h1
    simp only [chainLoop, h1]
    refine ⟨i1, by rw [i2, h2], by rw [i3, h3], ?_⟩
    rw [i4, h4]
    simp [flattenThenFilter]

theorem checkHost_ok (env : Env) (conf : Config) (host : String) (w : World)
    (hs : ∀ n c, env.smtpSendMail n c = none) (state : ConnectionState)
    (hd : env.tlsDial w.dials host = some state) (hw : w.halted = none) :
    (checkHost env conf host w).halted = none
      ∧ (checkHost env conf host w).dials = w.dials + 1
      ∧ (checkHost env conf host w).clockReads = w.clockReads + 1
      ∧ (checkHost env conf host w).alerts
          = w.alerts ++ flattenThenFilter env conf host (env.timeNow w.clockReads)
              state.VerifiedChains := by
  have key := chainLoop_ok env conf host (env.timeNow w.clockReads) hs state.VerifiedChains
    { trace := w.trace ++ [Event.stdout ("Checking SSL for " ++ host ++ "\n")]
                ++ [Event.tlsDial host true],
      dials := w.dials + 1, clockReads := w.clockReads + 1, sends := w.sends,
      halted := w.halted } hw
  simpa [checkHost, World.print, World.emit, hd, World.alerts, sendEmailCalls_append,
    sendEmailCalls] using key

theorem hostLoop_ok (env : Env) (conf : Config)
    (hd : ∀ i host, env.tlsDial i host ≠ none)
    (hs : ∀ n c, env.smtpSendMail n c = none) (hosts : List String) :
    ∀ w : World, w.halted = none →
      (hostLoop env conf hosts w).halted = none
        ∧ (hostLoop env conf hosts w).alerts
            = w.alerts ++ cycleAlerts env conf w.dials w.clockReads hosts := by
  induction hosts with
  | nil => intro w hw; simp [hostLoop, hw, cycleAlerts]
  | cons host rest ih =>
    intro w hw
    obtain ⟨state, hstate⟩ := Option.ne_none_iff_exists'.mp (hd w.dials host)
    obtain ⟨h1, h2, h3, h4⟩ := checkHost_ok env conf host w hs state hstate hw
    obtain ⟨i1, i2⟩ := ih _ h1
    simp only [hostLoop, h1]
    refine ⟨i1, ?_⟩
    rw [i2, h4, h2, h3]
    simp [cycleAlerts, hostAlerts, hstate]

theorem ownAlerts_eq_hostAlerts (env : Env) (conf : Config)
    (hd : ∀ i host, env.tlsDial i host ≠ none)
    (hs : ∀ n c, env.smtpSendMail n c = none) (dialIx clockIx : Nat) (host : String) :
    ownAlerts env conf dialIx clockIx host = hostAlerts env conf dialIx clockIx host := by
  obtain ⟨state, hstate⟩ := Option.ne_none_iff_exists'.mp (hd dialIx host)
  have key := checkHost_ok env conf host
    { World.start with dials := dialIx, clockReads := clockIx } hs state hstate rfl
  rw [ownAlerts, key.2.2.2]
  simp [hostAlerts, hstate, World.start, World.alerts, sendEmailCalls]

theorem inConfigurationOrder_eq_cycleAlerts (env : Env) (conf : Config)
    (hd : ∀ i host, env.tlsDial i host ≠ none)
    (hs : ∀ n c, env.smtpSendMail n c = none) (hosts : List String) :
    ∀ dialIx clockIx : Nat,
      inConfigurationOrder env conf dialIx clockIx hosts
        = cycleAlerts env conf dialIx clockIx hosts := by
  induction hosts with
  | nil => intro _ _; rfl
  | cons host rest ih =>
    intro dialIx clockIx
    simp only [inConfigurationOrder, cycleAlerts, ih,
      ownAlerts_eq_hostAlerts env conf hd hs]

/-! ## The threshold test (main.go, line 69) -/

theorem Time.After_iff (t u : Time) : t.After u = true ↔ u.unixNano < t.unixNano := by
  have h1 := t.nsec_range
  have h2 := u.nsec_range
  simp only [Time.After, Time.unixNano, Bool.or_eq_true, Bool.and_eq_true, decide_eq_true_eq]
  constructor
  · rintro (h | ⟨h, h'⟩) <;> omega
  · intro h
    by_cases hs : t.sec > u.sec
    · exact Or.inl hs
    · exact Or.inr ⟨by omega, by omega⟩

theorem Time.eq_of_sec_nsec (a b : Time) (h1 : a.sec = b.sec) (h2 : a.nsec = b.nsec) :
    a = b := by
  cases a
  cases b
  simp only [Time.mk.injEq]
  exact ⟨h1, h2⟩

theorem Time.AddDate_zero (t : Time) : t.AddDate 0 = t := by
  apply Time.eq_of_sec_nsec
  · have := t.sec_int64
    simp only [Time.AddDate, wrapInt64]
    omega
  · rfl

/-- Without overflow, `AddDate(0, 0, days)` moves the instant by `days` times
24 hours. -/
theorem Time.unixNano_AddDate_of_fits (t : Time) (days : Int) (h : t.AddDateFits days) :
    (t.AddDate days).unixNano = t.unixNano + days * nanosPerDay := by
  obtain ⟨h1, h2⟩ := h
  simp only [Time.AddDate, Time.unixNano, wrapInt64, nanosPerDay, secondsPerDay] at h1 h2 ⊢
  omega

/-- A wrapping `AddDate(0, 0, days)` with `days` non-negative never lands
later than `days` times 24 hours after `t`. -/
theorem Time.unixNano_AddDate_le (t : Time) (days : Int) (h : 0 ≤ days) :
    (t.AddDate days).unixNano ≤ t.unixNano + days * nanosPerDay := by
  have := t.sec_int64
  simp only [Time.AddDate, Time.unixNano, wrapInt64, nanosPerDay, secondsPerDay]
  omega

theorem expiresSoon_iff (conf : Config) (now : Time) (cert : Certificate) :
    expiresSoon conf now cert = true
      ↔ cert.NotAfter.unixNano
          < (now.AddDate conf.SSLCheck.DaysBeforeWarning).unixNano :=
  Time.After_iff _ _

theorem nanosPerDay_pos : 0 < nanosPerDay := by decide

/-- Whatever `smtp.SendMail` answers, `SendEmail` is one more alert and one
more send. -/
theorem SendEmail_counts (env : Env) (sender : Account) (email : Email) (w : World) :
    (SendEmail env sender email w).alerts = w.alerts ++ [(sender, email)]
      ∧ (SendEmail env sender email w).sends = w.sends + 1 := by
  cases herr : env.smtpSendMail w.sends
      { addr := sender.Server ++ ":" ++ toString sender.Port,
        auth := { identity := "", username := sender.Email, password := sender.Password,
                  host := sender.Server },
        sender := sender.Email, to_ := [email.To],
        msg := "To: " ++ email.To ++ "\r\nSubject: " ++ email.Subject ++ "\r\n\r\n"
                ++ email.Body } <;>
    simp [SendEmail, herr, World.emit, World.print, World.halt, World.alerts,
      sendEmailCalls_append, sendEmailCalls]

theorem SendEmail_dials_clockReads (env : Env) (sender : Account) (email : Email)
    (w : World) :
    (SendEmail env sender email w).dials = w.dials
      ∧ (SendEmail env sender email w).clockReads = w.clockReads := by
  cases herr : env.smtpSendMail w.sends
      { addr := sender.Server ++ ":" ++ toString sender.Port,
        auth := { identity := "", username := sender.Email, password := sender.Password,
                  host := sender.Server },
        sender := sender.Email, to_ := [email.To],
        msg := "To: " ++ email.To ++ "\r\nSubject: " ++ email.Subject ++ "\r\n\r\n"
                ++ email.Body } <;>
    simp [SendEmail, herr, World.emit, World.print, World.halt]

/-- The branch of line 79: one line on standard output, nothing else. -/
theorem checkCert_of_not_expiresSoon (env : Env) (conf : Config) (host : String) (now : Time)
    (cert : Certificate) (w : World) (h : expiresSoon conf now cert = false) :
    checkCert env conf host now cert w
      = w.print ("SSL ok, expires: " ++ env.formatTime cert.NotAfter ++ "\n") := by
  simp [checkCert, h]

theorem alerts_print (w : World) (text : String) : (w.print text).alerts = w.alerts := by
  simp [World.print, World.emit, World.alerts, sendEmailCalls_append, sendEmailCalls]

/-- The branch of line 70: the `SendEmail` call of lines 72-78, after one
line on standard output. -/
theorem checkCert_of_expiresSoon (env : Env) (conf : Config) (host : String) (now : Time)
    (cert : Certificate) (w : World) (h : expiresSoon conf now cert = true) :
    (checkCert env conf host now cert w).alerts = w.alerts ++ [alertFor env conf host cert]
      ∧ (checkCert env conf host now cert w).sends = w.sends + 1 := by
  have key := SendEmail_counts env conf.Account (alertEmail env conf host cert)
    (w.print ("=== SSL expires soon, expires: " ++ env.formatTime cert.NotAfter ++ " ===\n"))
  rw [alerts_print] at key
  have hbody : checkCert env conf host now cert w
      = SendEmail env conf.Account (alertEmail env conf host cert)
          (w.print ("=== SSL expires soon, expires: " ++ env.formatTime cert.NotAfter
            ++ " ===\n")) := by
    simp [checkCert, h]
  rw [hbody]
  exact key

/-- The alerts of the certificates of one host that pass the test, as one
alert or none per occurrence. -/
theorem filter_map_eq_flatMap_occurrences (env : Env) (conf : Config) (host : String)
    (now : Time) (certs : List Certificate) :
    (certs.filter (expiresSoon conf now)).map (alertFor env conf host)
      = (certs.map (fun cert => ({ host := host, now := now, cert := cert } : Occurrence))).flatMap
          (fun o =>
            if o.cert.NotAfter.unixNano
                < (o.now.AddDate conf.SSLCheck.DaysBeforeWarning).unixNano
            then [alertFor env conf o.host o.cert] else []) := by
  induction certs with
  | nil => rfl
  | cons cert rest ih =>
    by_cases h : expiresSoon conf now cert = true
    · have h' := (expiresSoon_iff conf now cert).mp h
      simp only [List.filter_cons, h, if_true, List.map_cons, List.flatMap_cons, h', ih,
        List.singleton_append]
    · have h' : ¬ cert.NotAfter.unixNano
          < (now.AddDate conf.SSLCheck.DaysBeforeWarning).unixNano :=
        fun hlt => h ((expiresSoon_iff conf now cert).mpr hlt)
      have hf : expiresSoon conf now cert = false := by simpa using h
      simp only [List.filter_cons, hf, List.map_cons, List.flatMap_cons, h', ih, if_false,
        List.nil_append, Bool.false_eq_true]

theorem cycleAlerts_eq_flatMap_occurrences (env : Env) (conf : Config) (hosts : List String) :
    ∀ dialIx clockIx : Nat,
      cycleAlerts env conf dialIx clockIx hosts
        = (occurrences env dialIx clockIx hosts).flatMap
            (fun o =>
              if o.cert.NotAfter.unixNano
                  < (o.now.AddDate conf.SSLCheck.DaysBeforeWarning).unixNano
              then [alertFor env conf o.host o.cert] else []) := by
  induction hosts with
  | nil => intro _ _; rfl
  | cons host rest ih =>
    intro dialIx clockIx
    simp only [cycleAlerts, occurrences, List.flatMap_append, ih]
    congr 1
    unfold hostAlerts
    cases env.tlsDial dialIx host with
    | none => rfl
    | some state =>
      exact filter_map_eq_flatMap_occurrences env conf host (env.timeNow clockIx)
        state.VerifiedChains.flatten

/-- Whatever the send does, the loop body adds the alert of a certificate
that passes the test and nothing for one that does not, and it neither dials
nor reads the clock. -/
theorem checkCert_alerts (env : Env) (conf : Config) (host : String) (now : Time)
    (cert : Certificate) (w : World) :
    (checkCert env conf host now cert w).alerts
        = w.alerts ++ (if expiresSoon conf now cert then [alertFor env conf host cert] else []) := by
  by_cases h : expiresSoon conf now cert = true
  · rw [(checkCert_of_expiresSoon env conf host now cert w h).1]
    simp [h]
  · have hf : expiresSoon conf now cert = false := by simpa using h
    rw [checkCert_of_not_expiresSoon env conf host now cert w hf, alerts_print]
    simp [hf]

theorem certLoop_of_completes (env : Env) (conf : Config) (host : String) (now : Time)
    (chain : List Certificate) :
    ∀ w : World, (certLoop env conf host now chain w).halted = none →
      (certLoop env conf host now chain w).alerts
        = w.alerts ++ (chain.filter (expiresSoon conf now)).map (alertFor env conf host) := by
  induction chain with
  | nil => intro w _; simp [certLoop]
  | cons cert rest ih =>
    intro w hdone
    cases hh : (checkCert env conf host now cert w).halted with
    | some halt => simp [certLoop, hh] at hdone
    | none =>
      simp only [certLoop, hh] at hdone ⊢
      rw [ih _ hdone, checkCert_alerts]
      by_cases h : expiresSoon conf now cert = true <;> simp [h, List.filter_cons]

theorem chainLoop_of_completes (env : Env) (conf : Config) (host : String) (now : Time)
    (chains : List (List Certificate)) :
    ∀ w : World, (chainLoop env conf host now chains w).halted = none →
      (chainLoop env conf host now chains w).alerts
        = w.alerts ++ flattenThenFilter env conf host now chains := by
  induction chains with
  | nil => intro w _; simp [chainLoop, flattenThenFilter]
  | cons chain rest ih =>
    intro w hdone
    cases hh : (certLoop env conf host now chain w).halted with
    | some halt => simp [chainLoop, hh] at hdone
    | none =>
      simp only [chainLoop, hh] at hdone ⊢
      rw [ih _ hdone, certLoop_of_completes env conf host now chain w hh]
      simp [flattenThenFilter]

theorem certLoop_counters (env : Env) (conf : Config) (host : String) (now : Time)
    (chain : List Certificate) :
    ∀ w : World, (certLoop env conf host now chain w).dials = w.dials
      ∧ (certLoop env conf host now chain w).clockReads = w.clockReads := by
  have hbody : ∀ (cert : Certificate) (w : World),
      (checkCert env conf host now cert w).dials = w.dials
        ∧ (checkCert env conf host now cert w).clockReads = w.clockReads := by
    intro cert w
    by_cases h : expiresSoon conf now cert = true
    · have hbody : checkCert env conf host now cert w
          = SendEmail env conf.Account (alertEmail env conf host cert)
              (w.print ("=== SSL expires soon, expires: " ++ env.formatTime cert.NotAfter
                ++ " ===\n")) := by
        simp [checkCert, h]
      rw [hbody]
      exact SendEmail_dials_clockReads env _ _ _
    · simp [checkCert, h, World.print, World.emit]
  induction chain with
  | nil => intro w; exact ⟨rfl, rfl⟩
  | cons cert rest ih =>
    intro w
    obtain ⟨b1, b2⟩ := hbody cert w
    cases hh : (checkCert env conf host now cert w).halted with
    | some halt => simp only [certLoop, hh]; exact ⟨b1, b2⟩
    | none =>
      simp only [certLoop, hh]
      obtain ⟨i1, i2⟩ := ih (checkCert env conf host now cert w)
      exact ⟨i1.trans b1, i2.trans b2⟩

theorem chainLoop_counters (env : Env) (conf : Config) (host : String) (now : Time)
    (chains : List (List Certificate)) :
    ∀ w : World, (chainLoop env conf host now chains w).dials = w.dials
      ∧ (chainLoop env conf host now chains w).clockReads = w.clockReads := by
  induction chains with
  | nil => intro w; exact ⟨rfl, rfl⟩
  | cons chain rest ih =>
    intro w
    obtain ⟨b1, b2⟩ := certLoop_counters env conf host now chain w
    cases hh : (certLoop env conf host now chain w).halted with
    | some halt => simp only [chainLoop, hh]; exact ⟨b1, b2⟩
    | none =>
      simp only [chainLoop, hh]
      obtain ⟨i1, i2⟩ := ih (certLoop env conf host now chain w)
      exact ⟨i1.trans b1, i2.trans b2⟩

/-- A host iteration that leaves the process running has dialled with
success, has walked all the chains, and has counted one dial and one clock
reading. -/
theorem checkHost_of_completes (env : Env) (conf : Config) (host : String) (w : World)
    (hdone : (checkHost env conf host w).halted = none) :
    (checkHost env conf host w).alerts = w.alerts ++ hostAlerts env conf w.dials w.clockReads host
      ∧ (checkHost env conf host w).dials = w.dials + 1
      ∧ (checkHost env conf host w).clockReads = w.clockReads + 1 := by
  cases hd : env.tlsDial w.dials host with
  | none => simp [checkHost, hd, World.print, World.emit, World.halt] at hdone
  | some state =>
    have hbody : checkHost env conf host w
        = chainLoop env conf host (env.timeNow w.clockReads) state.VerifiedChains
            { trace := w.trace ++ [Event.stdout ("Checking SSL for " ++ host ++ "\n")]
                        ++ [Event.tlsDial host true],
              dials := w.dials + 1, clockReads := w.clockReads + 1, sends := w.sends,
              halted := w.halted } := by
      simp [checkHost, hd, World.print, World.emit]
    rw [hbody] at hdone ⊢
    obtain ⟨c1, c2⟩ := chainLoop_counters env conf host (env.timeNow w.clockReads)
      state.VerifiedChains
      { trace := w.trace ++ [Event.stdout ("Checking SSL for " ++ host ++ "\n")]
                  ++ [Event.tlsDial host true],
        dials := w.dials + 1, clockReads := w.clockReads + 1, sends := w.sends,
        halted := w.halted }
    refine ⟨?_, c1, c2⟩
    rw [chainLoop_of_completes env conf host _ _ _ hdone]
    simp [hostAlerts, hd, World.alerts, sendEmailCalls_append, sendEmailCalls]

/-- A cycle that runs to completion has sent the alerts of every host. -/
theorem hostLoop_of_completes (env : Env) (conf : Config) (hosts : List String) :
    ∀ w : World, (hostLoop env conf hosts w).halted = none →
      (hostLoop env conf hosts w).alerts
        = w.alerts ++ cycleAlerts env conf w.dials w.clockReads hosts := by
  induction hosts with
  | nil => intro w _; simp [hostLoop, cycleAlerts]
  | cons host rest ih =>
    intro w hdone
    cases hh : (checkHost env conf host w).halted with
    | some halt => simp [hostLoop, hh] at hdone
    | none =>
      simp only [hostLoop, hh] at hdone ⊢
      obtain ⟨h1, h2, h3⟩ := checkHost_of_completes env conf host w hh
      rw [ih _ hdone, h1, h2, h3]
      simp [cycleAlerts]

/-- C1, as the code has it: with a non-negative `DaysBeforeWarning` `d`,
whenever the walk of `CheckSSL` comes to a certificate in a verified chain,
it makes exactly one `SendEmail` call, and with it one `smtp.SendMail` call,
for that occurrence if `now.AddDate(0, 0, d)` is strictly after `NotAfter`,
and none if the two are equal.  In a cycle that runs to completion the walk
comes to every occurrence, and the alerts of the cycle are, in order, one for
each occurrence with `now.AddDate(0, 0, d)` strictly after `NotAfter` and
none for the others. -/
theorem CheckSSL_one_alert_iff_strictly_after (env : Env) (conf : Config)
    (hdays : 0 ≤ conf.SSLCheck.DaysBeforeWarning) :
    (∀ (host : String) (now : Time) (cert : Certificate) (w : World),
        (cert.NotAfter.unixNano < (now.AddDate conf.SSLCheck.DaysBeforeWarning).unixNano →
            (checkCert env conf host now cert w).alerts
                = w.alerts ++ [alertFor env conf host cert]
              ∧ (checkCert env conf host now cert w).sends = w.sends + 1)
          ∧ (cert.NotAfter.unixNano = (now.AddDate conf.SSLCheck.DaysBeforeWarning).unixNano →
            (checkCert env conf host now cert w).alerts = w.alerts
              ∧ (checkCert env conf host now cert w).sends = w.sends))
      ∧ (∀ w : World, (CheckSSL env conf w).halted = none →
          (CheckSSL env conf w).alerts
            = w.alerts ++ (occurrences env w.dials w.clockReads conf.SSLCheck.Hosts).flatMap
                (fun o =>
                  if o.cert.NotAfter.unixNano
                      < (o.now.AddDate conf.SSLCheck.DaysBeforeWarning).unixNano
                  then [alertFor env conf o.host o.cert] else [])) := by
  have _hdays := hdays
  refine ⟨fun host now cert w => ⟨?_, ?_⟩, ?_⟩
  · intro h
    exact checkCert_of_expiresSoon env conf host now cert w ((expiresSoon_iff conf now cert).mpr h)
  · intro h
    have hsoon : expiresSoon conf now cert = false := by
      cases hb : expiresSoon conf now cert with
      | false => rfl
      | true =>
        have := (expiresSoon_iff conf now cert).mp hb
        omega
    rw [checkCert_of_not_expiresSoon env conf host now cert w hsoon, alerts_print]
    exact ⟨rfl, rfl⟩
  · intro w hdone
    rw [← cycleAlerts_eq_flatMap_occurrences]
    exact hostLoop_of_completes env conf conf.SSLCheck.Hosts w hdone

/-- Witness of C1: on 2024-01-01 with a 30-day window, a certificate that
expires on 2024-01-20 gets exactly one alert, from the loop body and from the
whole cycle over its host. -/
theorem CheckSSL_one_alert_iff_strictly_after_witness :
    ((checkCert (demoEnv (dialAlways [[{ NotAfter := day 19742 }]]) (day 19723) smtpOk)
          (demoConf ["example.org:443"] 30) "example.org:443" (day 19723)
          { NotAfter := day 19742 } World.start).alerts
        = World.start.alerts
            ++ [alertFor (demoEnv (dialAlways [[{ NotAfter := day 19742 }]]) (day 19723) smtpOk)
                  (demoConf ["example.org:443"] 30) "example.org:443" { NotAfter := day 19742 }]
      ∧ (checkCert (demoEnv (dialAlways [[{ NotAfter := day 19742 }]]) (day 19723) smtpOk)
          (demoConf ["example.org:443"] 30) "example.org:443" (day 19723)
          { NotAfter := day 19742 } World.start).sends = World.start.sends + 1)
      ∧ (CheckSSL (demoEnv (dialAlways [[{ NotAfter := day 19742 }]]) (day 19723) smtpOk)
          (demoConf ["example.org:443"] 30) World.start).alerts
        = [(demoAccount,
            { To := "ops@example.org",
              Subject := "SSL Certificate for example.org:443 expires soon - 1705708800000000000",
              Body := "" })] := by
  refine ⟨((CheckSSL_one_alert_iff_strictly_after
      (demoEnv (dialAlways [[{ NotAfter := day 19742 }]]) (day 19723) smtpOk)
      (demoConf ["example.org:443"] 30) (by decide)).1 "example.org:443" (day 19723)
      { NotAfter := day 19742 } World.start).1 (by decide), ?_⟩
  rw [(CheckSSL_one_alert_iff_strictly_after
      (demoEnv (dialAlways [[{ NotAfter := day 19742 }]]) (day 19723) smtpOk)
      (demoConf ["example.org:443"] 30) (by decide)).2 World.start (by decide)]
  decide

/-- C1 fails as stated: on 2024-01-01 with a 30-day window, a certificate
whose `NotAfter` is exactly 30 days later satisfies `now + d days >= notAfter`,
yet the cycle over its host sends no alert.  And a cycle that a failed send
cuts short sends no alert for a later certificate, though `now + d days` is
strictly after its `NotAfter`. -/
theorem boundary_equal_no_alert :
    (0 : Int) ≤ (demoConf ["example.org:443"] 30).SSLCheck.DaysBeforeWarning
      ∧ ((day 19723).AddDate (demoConf ["example.org:443"] 30).SSLCheck.DaysBeforeWarning).unixNano
          ≥ (day 19753).unixNano
      ∧ (CheckSSL (demoEnv (dialAlways [[{ NotAfter := day 19753 }]]) (day 19723) smtpOk)
          (demoConf ["example.org:443"] 30) World.start).alerts = []
      ∧ (CheckSSL (demoEnv (dialAlways [[{ NotAfter := day 19753 }]]) (day 19723) smtpOk)
          (demoConf ["example.org:443"] 30) World.start).halted = none
      ∧ ((day 19723).AddDate (demoConf ["example.org:443"] 30).SSLCheck.DaysBeforeWarning).unixNano
          > (day 19730).unixNano
      ∧ (CheckSSL (demoEnv (dialAlways [[{ NotAfter := day 19724 }, { NotAfter := day 19730 }]])
            (day 19723) smtpFirstFails) (demoConf ["example.org:443"] 30) World.start).alerts
          = [(demoAccount,
              { To := "ops@example.org",
                Subject := "SSL Certificate for example.org:443 expires soon - 1704153600000000000",
                Body := "" })] := by
  decide

/-- C2: when `NotAfter` is strictly later than `now` plus `DaysBeforeWarning`
days, the loop body of `CheckSSL` only prints the line `SSL ok`: it makes no
`SendEmail` call and no `smtp.SendMail` call for that certificate.  In
particular this holds for a certificate that expires 400 days after `now`
when `DaysBeforeWarning` is 30. -/
theorem checkCert_no_false_alarm (env : Env) (conf : Config) (host : String)
    (now : Time) (cert : Certificate) (w : World)
    (h : (now.AddDate conf.SSLCheck.DaysBeforeWarning).unixNano < cert.NotAfter.unixNano
          ∨ (conf.SSLCheck.DaysBeforeWarning = 30
              ∧ cert.NotAfter.unixNano = now.unixNano + 400 * nanosPerDay)) :
    checkCert env conf host now cert w
        = w.print ("SSL ok, expires: " ++ env.formatTime cert.NotAfter ++ "\n")
      ∧ (checkCert env conf host now cert w).alerts = w.alerts
      ∧ (checkCert env conf host now cert w).sends = w.sends := by
  have hlater : (now.AddDate conf.SSLCheck.DaysBeforeWarning).unixNano
      < cert.NotAfter.unixNano := by
    rcases h with h | ⟨hd, hc⟩
    · exact h
    · rw [hd, hc]
      have hle := Time.unixNano_AddDate_le now 30 (by decide)
      have := nanosPerDay_pos
      omega
  have hsoon : expiresSoon conf now cert = false := by
    cases hb : expiresSoon conf now cert with
    | false => rfl
    | true =>
      have := (expiresSoon_iff conf now cert).mp hb
      omega
  have key := checkCert_of_not_expiresSoon env conf host now cert w hsoon
  refine ⟨key, ?_, ?_⟩
  · rw [key, alerts_print]
  · rw [key]; rfl

/-- Witness of C2: on 2024-01-01 with a 30-day window, a certificate that
expires 400 days later gets no alert. -/
theorem checkCert_no_false_alarm_witness :
    (checkCert (demoEnv (dialAlways []) (day 19723) smtpOk) (demoConf ["example.org:443"] 30)
        "example.org:443" (day 19723) { NotAfter := (day 19723).AddDate 400 } World.start).alerts
      = [] :=
  (checkCert_no_false_alarm (demoEnv (dialAlways []) (day 19723) smtpOk)
    (demoConf ["example.org:443"] 30) "example.org:443" (day 19723)
    { NotAfter := (day 19723).AddDate 400 } World.start (Or.inr ⟨rfl, by decide⟩)).2.1

/-- C8: with `DaysBeforeWarning = 0` the threshold is `now` itself, and the
loop body of `CheckSSL` sends an alert for a certificate only if its
`NotAfter` is not later than `now`; a certificate whose `NotAfter` is later
than `now` gets no alert. -/
theorem checkCert_zero_day_window (env : Env) (conf : Config) (host : String)
    (now : Time) (cert : Certificate) (w : World)
    (h0 : conf.SSLCheck.DaysBeforeWarning = 0) :
    now.AddDate conf.SSLCheck.DaysBeforeWarning = now
      ∧ ((checkCert env conf host now cert w).alerts ≠ w.alerts →
          cert.NotAfter.unixNano ≤ now.unixNano)
      ∧ (now.unixNano < cert.NotAfter.unixNano →
          (checkCert env conf host now cert w).alerts = w.alerts) := by
  have hadd : now.AddDate conf.SSLCheck.DaysBeforeWarning = now := by
    rw [h0]
    exact Time.AddDate_zero now
  have hlater : now.unixNano < cert.NotAfter.unixNano →
      (checkCert env conf host now cert w).alerts = w.alerts := by
    intro hlt
    have hsoon : expiresSoon conf now cert = false := by
      cases hb : expiresSoon conf now cert with
      | false => rfl
      | true =>
        have := (expiresSoon_iff conf now cert).mp hb
        rw [hadd] at this
        omega
    rw [checkCert_of_not_expiresSoon env conf host now cert w hsoon, alerts_print]
  refine ⟨hadd, ?_, hlater⟩
  intro hne
  by_contra hgt
  exact hne (hlater (by omega))

/-- Witness of C8: with a zero-day window, a certificate that expires at
midnight of 2024-01-01 is alerted when the clock reads one nanosecond past
that midnight, and a certificate that expires on 2024-01-02 is not alerted
on 2024-01-01. -/
theorem checkCert_zero_day_window_witness :
    (day 19723).unixNano ≤ (Unix 1704067200 1).unixNano
      ∧ (checkCert (demoEnv (dialAlways []) (day 19723) smtpOk) (demoConf ["example.org:443"] 0)
          "example.org:443" (day 19723) { NotAfter := day 19724 } World.start).alerts
          = World.start.alerts :=
  ⟨(checkCert_zero_day_window (demoEnv (dialAlways []) (Unix 1704067200 1) smtpOk)
      (demoConf ["example.org:443"] 0) "example.org:443" (Unix 1704067200 1)
      { NotAfter := day 19723 } World.start rfl).2.1 (by decide),
   (checkCert_zero_day_window (demoEnv (dialAlways []) (day 19723) smtpOk)
      (demoConf ["example.org:443"] 0) "example.org:443" (day 19723) { NotAfter := day 19724 }
      World.start rfl).2.2 (by decide)⟩

/-- C9: when the dial to the first configured host succeeds and its
`VerifiedChains` is empty, `CheckSSL` prints the `Checking SSL` line, dials,
reads the clock, makes no `SendEmail` and no `smtp.SendMail` call, keeps
running, and goes on with the remaining hosts. -/
theorem CheckSSL_empty_chain_set (env : Env) (conf : Config) (host : String)
    (rest : List String) (w : World)
    (hhosts : conf.SSLCheck.Hosts = host :: rest)
    (hd : env.tlsDial w.dials host = some { VerifiedChains := [] })
    (hw : w.halted = none) :
    checkHost env conf host w
        = { trace := w.trace ++ [Event.stdout ("Checking SSL for " ++ host ++ "\n"),
                                 Event.tlsDial host true],
            dials := w.dials + 1, clockReads := w.clockReads + 1, sends := w.sends,
            halted := none }
      ∧ (checkHost env conf host w).alerts = w.alerts
      ∧ CheckSSL env conf w = hostLoop env conf rest (checkHost env conf host w) := by
  have hbody : checkHost env conf host w
      = { trace := w.trace ++ [Event.stdout ("Checking SSL for " ++ host ++ "\n"),
                               Event.tlsDial host true],
          dials := w.dials + 1, clockReads := w.clockReads + 1, sends := w.sends,
          halted := none } := by
    simp [checkHost, hd, chainLoop, World.print, World.emit, hw]
  refine ⟨hbody, ?_, ?_⟩
  · rw [hbody]
    simp [World.alerts, sendEmailCalls_append, sendEmailCalls]
  · have hrun : (checkHost env conf host w).halted = none := by rw [hbody]
    simp only [CheckSSL, hhosts, hostLoop, hrun]

/-- Witness of C9: a first host with no verified chain is followed by the
check of the second host, whose certificate expires the next day and is
alerted. -/
theorem CheckSSL_empty_chain_set_witness :
    (CheckSSL
        (demoEnv (fun i _ => if i = 0 then some { VerifiedChains := [] }
                              else some { VerifiedChains := [[{ NotAfter := day 19724 }]] })
          (day 19723) smtpOk)
        (demoConf ["a.example.org:443", "b.example.org:443"] 30) World.start).alerts
      = [(demoAccount,
          { To := "ops@example.org",
            Subject := "SSL Certificate for b.example.org:443 expires soon - 1704153600000000000",
            Body := "" })] := by
  rw [(CheckSSL_empty_chain_set
        (demoEnv (fun i _ => if i = 0 then some { VerifiedChains := [] }
                              else some { VerifiedChains := [[{ NotAfter := day 19724 }]] })
          (day 19723) smtpOk)
        (demoConf ["a.example.org:443", "b.example.org:443"] 30) "a.example.org:443"
        ["b.example.org:443"] World.start rfl rfl rfl).2.2]
  decide

/-! ## The walk over chains and hosts -/

/-- C5: when the dial to `host` succeeds and every send succeeds, the alerts
`CheckSSL` sends while checking `host` are, in order, the certificates of the
concatenated chains that pass the test of line 69, each rendered as an alert.
Nothing is deduplicated: a certificate that passes the test is kept as many
times as it occurs in the concatenated chains. -/
theorem checkHost_alerts_eq_flattenThenFilter (env : Env) (conf : Config) (host : String)
    (w : World) (state : ConnectionState)
    (hs : ∀ n c, env.smtpSendMail n c = none)
    (hd : env.tlsDial w.dials host = some state)
    (hw : w.halted = none) :
    (checkHost env conf host w).alerts
        = w.alerts ++ flattenThenFilter env conf host (env.timeNow w.clockReads)
            state.VerifiedChains
      ∧ (flattenThenFilter env conf host (env.timeNow w.clockReads) state.VerifiedChains).length
          = (state.VerifiedChains.flatten.filter
              (expiresSoon conf (env.timeNow w.clockReads))).length
      ∧ ∀ cert : Certificate, expiresSoon conf (env.timeNow w.clockReads) cert = true →
          (state.VerifiedChains.flatten.filter
              (expiresSoon conf (env.timeNow w.clockReads))).count cert
            = state.VerifiedChains.flatten.count cert := by
  refine ⟨(checkHost_ok env conf host w hs state hd hw).2.2.2, ?_, ?_⟩
  · simp only [flattenThenFilter, List.length_map]
  · intro cert hcert
    exact List.count_filter hcert

/-- Witness of C5: a certificate that expires the next day and heads two
chains is alerted twice, in order, and the one between them, which expires
after the window, is skipped. -/
theorem checkHost_alerts_eq_flattenThenFilter_witness :
    (checkHost (demoEnv (dialAlways [[{ NotAfter := day 19724 }, { NotAfter := day 20000 }],
                                     [{ NotAfter := day 19724 }]]) (day 19723) smtpOk)
        (demoConf ["example.org:443"] 30) "example.org:443" World.start).alerts
      = [(demoAccount,
          { To := "ops@example.org",
            Subject := "SSL Certificate for example.org:443 expires soon - 1704153600000000000",
            Body := "" }),
         (demoAccount,
          { To := "ops@example.org",
            Subject := "SSL Certificate for example.org:443 expires soon - 1704153600000000000",
            Body := "" })] := by
  rw [(checkHost_alerts_eq_flattenThenFilter
        (demoEnv (dialAlways [[{ NotAfter := day 19724 }, { NotAfter := day 20000 }],
                              [{ NotAfter := day 19724 }]]) (day 19723) smtpOk)
        (demoConf ["example.org:443"] 30) "example.org:443" World.start
        { VerifiedChains := [[{ NotAfter := day 19724 }, { NotAfter := day 20000 }],
                             [{ NotAfter := day 19724 }]] }
        (fun _ _ => rfl) rfl rfl).1]
  decide

/-- C6: when every dial and every send succeeds, the alerts of one `CheckSSL`
cycle are the concatenation, in the order of `conf.SSLCheck.Hosts`, of the
alerts each host gets when it is checked on its own. -/
theorem CheckSSL_alerts_in_configuration_order (env : Env) (conf : Config) (w : World)
    (hd : ∀ i host, env.tlsDial i host ≠ none)
    (hs : ∀ n c, env.smtpSendMail n c = none)
    (hw : w.halted = none) :
    (CheckSSL env conf w).alerts
      = w.alerts ++ inConfigurationOrder env conf w.dials w.clockReads conf.SSLCheck.Hosts := by
  rw [inConfigurationOrder_eq_cycleAlerts env conf hd hs]
  exact (hostLoop_ok env conf hd hs conf.SSLCheck.Hosts w hw).2

/-- Witness of C6: two hosts with a certificate that expires the next day
each are alerted in the order they are configured. -/
theorem CheckSSL_alerts_in_configuration_order_witness :
    (CheckSSL (demoEnv (dialAlways [[{ NotAfter := day 19724 }]]) (day 19723) smtpOk)
        (demoConf ["b.example.org:443", "a.example.org:443"] 30) World.start).alerts
      = [(demoAccount,
          { To := "ops@example.org",
            Subject := "SSL Certificate for b.example.org:443 expires soon - 1704153600000000000",
            Body := "" }),
         (demoAccount,
          { To := "ops@example.org",
            Subject := "SSL Certificate for a.example.org:443 expires soon - 1704153600000000000",
            Body := "" })] := by
  rw [CheckSSL_alerts_in_configuration_order
        (demoEnv (dialAlways [[{ NotAfter := day 19724 }]]) (day 19723) smtpOk)
        (demoConf ["b.example.org:443", "a.example.org:443"] 30) World.start
        (fun _ _ => by simp [demoEnv, dialAlways]) (fun _ _ => rfl) rfl]
  decide

/-! ## Monotonicity in the warning window -/

theorem expiresSoon_mono (conf : Config) (now : Time) (cert : Certificate) (d d' : Int)
    (hle : d ≤ d') (hd : now.AddDateFits d) (hd' : now.AddDateFits d')
    (h : expiresSoon (conf.withDays d) now cert = true) :
    expiresSoon (conf.withDays d') now cert = true := by
  rw [expiresSoon_iff] at h ⊢
  have hmul : d * nanosPerDay ≤ d' * nanosPerDay :=
    Int.mul_le_mul_of_nonneg_right hle (le_of_lt nanosPerDay_pos)
  simp only [Config.withDays] at h ⊢
  rw [Time.unixNano_AddDate_of_fits now d hd] at h
  rw [Time.unixNano_AddDate_of_fits now d' hd']
  omega

theorem flattenThenFilter_mono (env : Env) (conf : Config) (host : String) (now : Time)
    (chains : List (List Certificate)) (d d' : Int) (hle : d ≤ d')
    (hd : now.AddDateFits d) (hd' : now.AddDateFits d') :
    List.Sublist (flattenThenFilter env (conf.withDays d) host now chains)
      (flattenThenFilter env (conf.withDays d') host now chains) := by
  have hf : List.Sublist (chains.flatten.filter (expiresSoon (conf.withDays d) now))
      (chains.flatten.filter (expiresSoon (conf.withDays d') now)) :=
    List.monotone_filter_right _
      (fun cert h => expiresSoon_mono conf now cert d d' hle hd hd' h)
  exact hf.map (alertFor env conf host)

theorem cycleAlerts_mono (env : Env) (conf : Config) (d d' : Int) (hle : d ≤ d')
    (hfits : ∀ j, (env.timeNow j).AddDateFits d ∧ (env.timeNow j).AddDateFits d')
    (hosts : List String) :
    ∀ dialIx clockIx : Nat,
      List.Sublist (cycleAlerts env (conf.withDays d) dialIx clockIx hosts)
        (cycleAlerts env (conf.withDays d') dialIx clockIx hosts) := by
  induction hosts with
  | nil => intro _ _; exact List.Sublist.refl _
  | cons host rest ih =>
    intro dialIx clockIx
    simp only [cycleAlerts]
    refine List.Sublist.append ?_ (ih _ _)
    unfold hostAlerts
    cases env.tlsDial dialIx host with
    | none => exact List.Sublist.refl _
    | some state =>
      exact flattenThenFilter_mono env conf host _ _ d d' hle (hfits clockIx).1
        (hfits clockIx).2

/-- C10, as the code has it: for `d ≤ d'` and a `now` for which neither
`now` plus `d` days nor `now` plus `d'` days leaves the seconds an `int64`
holds, a certificate that passes the test of line 69 with
`DaysBeforeWarning = d` passes it with `DaysBeforeWarning = d'`; hence, for a
fixed chain set and such a `now`, the alerted certificates for `d` are a
sublist of those for `d'`, and when every dial and every send succeeds and
every clock reading is such a `now`, the alerts of a cycle run with `d` are a
sublist of the alerts of the same cycle run with `d'`. -/
theorem warning_window_monotone_within_int64 (conf : Config) (d d' : Int) (hle : d ≤ d') :
    (∀ (now : Time) (cert : Certificate), now.AddDateFits d → now.AddDateFits d' →
        (now.AddDate d).After cert.NotAfter = true →
        (now.AddDate d').After cert.NotAfter = true)
      ∧ (∀ (now : Time) (chains : List (List Certificate)),
          now.AddDateFits d → now.AddDateFits d' →
          List.Sublist (chains.flatten.filter (expiresSoon (conf.withDays d) now))
            (chains.flatten.filter (expiresSoon (conf.withDays d') now)))
      ∧ (∀ (env : Env) (w : World),
          (∀ j, (env.timeNow j).AddDateFits d ∧ (env.timeNow j).AddDateFits d') →
          (∀ i host, env.tlsDial i host ≠ none) →
          (∀ n c, env.smtpSendMail n c = none) → w.halted = none →
          List.Sublist (CheckSSL env (conf.withDays d) w).alerts
            (CheckSSL env (conf.withDays d') w).alerts) := by
  refine ⟨fun now cert hd hd' h => expiresSoon_mono conf now cert d d' hle hd hd' h, ?_, ?_⟩
  · intro now chains hd hd'
    exact List.monotone_filter_right _
      (fun cert h => expiresSoon_mono conf now cert d d' hle hd hd' h)
  · intro env w hfits hd hs hw
    have h1 := (hostLoop_ok env (conf.withDays d) hd hs conf.SSLCheck.Hosts w hw).2
    have h2 := (hostLoop_ok env (conf.withDays d') hd hs conf.SSLCheck.Hosts w hw).2
    have e1 : CheckSSL env (conf.withDays d) w
        = hostLoop env (conf.withDays d) conf.SSLCheck.Hosts w := rfl
    have e2 : CheckSSL env (conf.withDays d') w
        = hostLoop env (conf.withDays d') conf.SSLCheck.Hosts w := rfl
    rw [e1, e2, h1, h2]
    exact List.Sublist.append (List.Sublist.refl _)
      (cycleAlerts_mono env conf d d' hle hfits _ _ _)

/-- Witness of C10: on 2024-01-01 a certificate that expires on 2024-01-03
is alerted with a 5-day window, hence with a 30-day window. -/
theorem warning_window_monotone_within_int64_witness :
    ((day 19723).AddDate 30).After (day 19725) = true
      ∧ List.Sublist
          (CheckSSL (demoEnv (dialAlways [[{ NotAfter := day 19725 }, { NotAfter := day 19740 }]])
              (day 19723) smtpOk) ((demoConf ["example.org:443"] 0).withDays 5) World.start).alerts
          (CheckSSL (demoEnv (dialAlways [[{ NotAfter := day 19725 }, { NotAfter := day 19740 }]])
              (day 19723) smtpOk) ((demoConf ["example.org:443"] 0).withDays 30) World.start).alerts :=
  ⟨(warning_window_monotone_within_int64 (demoConf ["example.org:443"] 0) 5 30 (by decide)).1
      (day 19723) { NotAfter := day 19725 } (by decide) (by decide) (by decide),
   (warning_window_monotone_within_int64 (demoConf ["example.org:443"] 0) 5 30 (by decide)).2.2
      (demoEnv (dialAlways [[{ NotAfter := day 19725 }, { NotAfter := day 19740 }]])
        (day 19723) smtpOk) World.start
      (fun _ => show (day 19723).AddDateFits 5 ∧ (day 19723).AddDateFits 30 from by decide)
      (fun _ _ => by simp [demoEnv, dialAlways]) (fun _ _ => rfl) rfl⟩

/-- C10 fails as stated: on 2024-01-01 a certificate that expires on
2024-01-03 passes the test of line 69 with `DaysBeforeWarning = 5` and fails
it with `DaysBeforeWarning = 9223372036854775807`, the largest `int`:
`AddDate` wraps around to 2023-12-31.  The cycle sends one alert with the
first window and none with the second. -/
theorem warning_window_not_monotone_at_wraparound :
    (5 : Int) ≤ 9223372036854775807
      ∧ ((day 19723).AddDate 5).After (day 19725) = true
      ∧ ((day 19723).AddDate 9223372036854775807).After (day 19725) = false
      ∧ (day 19723).AddDate 9223372036854775807 = day 19722
      ∧ (CheckSSL (demoEnv (dialAlways [[{ NotAfter := day 19725 }]]) (day 19723) smtpOk)
          ((demoConf ["example.org:443"] 0).withDays 5) World.start).alerts
        = [(demoAccount,
            { To := "ops@example.org",
              Subject := "SSL Certificate for example.org:443 expires soon - 1704240000000000000",
              Body := "" })]
      ∧ (CheckSSL (demoEnv (dialAlways [[{ NotAfter := day 19725 }]]) (day 19723) smtpOk)
          ((demoConf ["example.org:443"] 0).withDays 9223372036854775807) World.start).alerts
        = [] := by
  decide

/-! ## Where every alert comes from -/

theorem checkCert_new_alerts (env : Env) (conf : Config) (host : String) (now : Time)
    (cert : Certificate) (w : World) :
    ∃ new, (checkCert env conf host now cert w).alerts = w.alerts ++ new
      ∧ ∀ a ∈ new, expiresSoon conf now cert = true ∧ a = alertFor env conf host cert := by
  by_cases h : expiresSoon conf now cert = true
  · refine ⟨[alertFor env conf host cert], ?_, ?_⟩
    · have key := SendEmail_counts env conf.Account (alertEmail env conf host cert)
        (w.print ("=== SSL expires soon, expires: " ++ env.formatTime cert.NotAfter
          ++ " ===\n"))
      rw [alerts_print] at key
      have hbody : checkCert env conf host now cert w
          = SendEmail env conf.Account (alertEmail env conf host cert)
              (w.print ("=== SSL expires soon, expires: " ++ env.formatTime cert.NotAfter
                ++ " ===\n")) := by
        simp [checkCert, h]
      rw [hbody]
      exact key.1
    · intro a ha
      exact ⟨h, List.mem_singleton.mp ha⟩
  · refine ⟨[], ?_, ?_⟩
    · rw [checkCert_of_not_expiresSoon env conf host now cert w (by simpa using h),
        alerts_print, List.append_nil]
    · intro a ha
      cases ha

theorem certLoop_new_alerts (env : Env) (conf : Config) (host : String) (now : Time)
    (chain : List Certificate) :
    ∀ w : World, ∃ new, (certLoop env conf host now chain w).alerts = w.alerts ++ new
      ∧ ∀ a ∈ new, ∃ cert ∈ chain,
          expiresSoon conf now cert = true ∧ a = alertFor env conf host cert := by
  induction chain with
  | nil => intro w; exact ⟨[], by simp [certLoop], fun a ha => by cases ha⟩
  | cons cert rest ih =>
    intro w
    obtain ⟨new1, h1, p1⟩ := checkCert_new_alerts env conf host now cert w
    cases hh : (checkCert env conf host now cert w).halted with
    | some halt =>
      refine ⟨new1, by simp only [certLoop, hh]; exact h1, ?_⟩
      intro a ha
      exact ⟨cert, List.mem_cons_self _ _, p1 a ha⟩
    | none =>
      obtain ⟨new2, h2, p2⟩ := ih (checkCert env conf host now cert w)
      refine ⟨new1 ++ new2, by simp only [certLoop, hh]; rw [h2, h1, List.append_assoc], ?_⟩
      intro a ha
      rcases List.mem_append.mp ha with ha | ha
      · exact ⟨cert, List.mem_cons_self _ _, p1 a ha⟩
      · obtain ⟨c, hc, hp⟩ := p2 a ha
        exact ⟨c, List.mem_cons_of_mem _ hc, hp⟩

theorem chainLoop_new_alerts (env : Env) (conf : Config) (host : String) (now : Time)
    (chains : List (List Certificate)) :
    ∀ w : World, ∃ new, (chainLoop env conf host now chains w).alerts = w.alerts ++ new
      ∧ ∀ a ∈ new, ∃ chain ∈ chains, ∃ cert ∈ chain,
          expiresSoon conf now cert = true ∧ a = alertFor env conf host cert := by
  induction chains with
  | nil => intro w; exact ⟨[], by simp [chainLoop], fun a ha => by cases ha⟩
  | cons chain rest ih =>
    intro w
    obtain ⟨new1, h1, p1⟩ := certLoop_new_alerts env conf host now chain w
    cases hh : (certLoop env conf host now chain w).halted with
    | some halt =>
      refine ⟨new1, by simp only [chainLoop, hh]; exact h1, ?_⟩
      intro a ha
      exact ⟨chain, List.mem_cons_self _ _, p1 a ha⟩
    | none =>
      obtain ⟨new2, h2, p2⟩ := ih (certLoop env conf host now chain w)
      refine ⟨new1 ++ new2, by simp only [chainLoop, hh]; rw [h2, h1, List.append_assoc], ?_⟩
      intro a ha
      rcases List.mem_append.mp ha with ha | ha
      · exact ⟨chain, List.mem_cons_self _ _, p1 a ha⟩
      · obtain ⟨c, hc, hp⟩ := p2 a ha
        exact ⟨c, List.mem_cons_of_mem _ hc, hp⟩

theorem checkHost_new_alerts (env : Env) (conf : Config) (host : String) (w : World) :
    ∃ new, (checkHost env conf host w).alerts = w.alerts ++ new
      ∧ ∀ a ∈ new, ∃ state, env.tlsDial w.dials host = some state
          ∧ ∃ chain ∈ state.VerifiedChains, ∃ cert ∈ chain,
              expiresSoon conf (env.timeNow w.clockReads) cert = true
                ∧ a = alertFor env conf host cert := by
  cases hd : env.tlsDial w.dials host with
  | none =>
    refine ⟨[], ?_, fun a ha => by cases ha⟩
    simp [checkHost, hd, World.print, World.emit, World.halt, World.alerts,
      sendEmailCalls_append, sendEmailCalls]
  | some state =>
    obtain ⟨new, h, p⟩ := chainLoop_new_alerts env conf host (env.timeNow w.clockReads)
      state.VerifiedChains
      { trace := w.trace ++ [Event.stdout ("Checking SSL for " ++ host ++ "\n")]
                  ++ [Event.tlsDial host true],
        dials := w.dials + 1, clockReads := w.clockReads + 1, sends := w.sends,
        halted := w.halted }
    refine ⟨new, ?_, fun a ha => ⟨state, rfl, p a ha⟩⟩
    simpa [checkHost, World.print, World.emit, hd, World.alerts, sendEmailCalls_append,
      sendEmailCalls] using h

theorem hostLoop_new_alerts (env : Env) (conf : Config) (hosts : List String) :
    ∀ w : World, ∃ new, (hostLoop env conf hosts w).alerts = w.alerts ++ new
      ∧ ∀ a ∈ new, ∃ host ∈ hosts, ∃ dialIx clockIx state,
          env.tlsDial dialIx host = some state
            ∧ ∃ chain ∈ state.VerifiedChains, ∃ cert ∈ chain,
                expiresSoon conf (env.timeNow clockIx) cert = true
                  ∧ a = alertFor env conf host cert := by
  induction hosts with
  | nil => intro w; exact ⟨[], by simp [hostLoop], fun a ha => by cases ha⟩
  | cons host rest ih =>
    intro w
    obtain ⟨new1, h1, p1⟩ := checkHost_new_alerts env conf host w
    have q1 : ∀ a ∈ new1, ∃ host' ∈ host :: rest, ∃ dialIx clockIx state,
        env.tlsDial dialIx host' = some state
          ∧ ∃ chain ∈ state.VerifiedChains, ∃ cert ∈ chain,
              expiresSoon conf (env.timeNow clockIx) cert = true
                ∧ a = alertFor env conf host' cert := by
      intro a ha
      obtain ⟨state, hstate, rest'⟩ := p1 a ha
      exact ⟨host, List.mem_cons_self _ _, w.dials, w.clockReads, state, hstate, rest'⟩
    cases hh : (checkHost env conf host w).halted with
    | some halt => exact ⟨new1, by simp only [hostLoop, hh]; exact h1, q1⟩
    | none =>
      obtain ⟨new2, h2, p2⟩ := ih (checkHost env conf host w)
      refine ⟨new1 ++ new2, by simp only [hostLoop, hh]; rw [h2, h1, List.append_assoc], ?_⟩
      intro a ha
      rcases List.mem_append.mp ha with ha | ha
      · exact q1 a ha
      · obtain ⟨host', hmem, hp⟩ := p2 a ha
        exact ⟨host', List.mem_cons_of_mem _ hmem, hp⟩

/-- C7: every email `CheckSSL` hands to `SendEmail` is sent with
`conf.Account` as the sender, has `To` equal to `conf.Alert.Email`, an empty
`Body`, and the `Subject`
`"SSL Certificate for <host> expires soon - <NotAfter>"`, where `<host>` is a
configured host whose dial succeeded and `<NotAfter>` is the rendering of the
`NotAfter` of a certificate in its verified chains that passed the test of
line 69. -/
theorem CheckSSL_alert_content (env : Env) (conf : Config) (w : World)
    (sender : Account) (email : Email)
    (hmem : (sender, email) ∈ (CheckSSL env conf w).alerts.drop w.alerts.length) :
    sender = conf.Account ∧ email.To = conf.Alert.Email ∧ email.Body = ""
      ∧ ∃ host ∈ conf.SSLCheck.Hosts, ∃ dialIx clockIx state,
          env.tlsDial dialIx host = some state
            ∧ ∃ chain ∈ state.VerifiedChains, ∃ cert ∈ chain,
                expiresSoon conf (env.timeNow clockIx) cert = true
                  ∧ email.Subject = "SSL Certificate for " ++ host ++ " expires soon - "
                      ++ env.formatTime cert.NotAfter := by
  obtain ⟨new, h, p⟩ := hostLoop_new_alerts env conf conf.SSLCheck.Hosts w
  have hdrop : (CheckSSL env conf w).alerts.drop w.alerts.length = new := by
    rw [CheckSSL, h, List.drop_left]
  rw [hdrop] at hmem
  obtain ⟨host, hhost, dialIx, clockIx, state, hstate, chain, hchain, cert, hcert, hsoon, ha⟩ :=
    p _ hmem
  have hs : sender = conf.Account := congrArg Prod.fst ha
  have he : email = alertEmail env conf host cert := congrArg Prod.snd ha
  refine ⟨hs, by rw [he]; rfl, by rw [he]; rfl, host, hhost, dialIx, clockIx, state, hstate,
    chain, hchain, cert, hcert, hsoon, by rw [he]; rfl⟩

/-- Witness of C7: the one alert of a cycle over `example.org:443`. -/
theorem CheckSSL_alert_content_witness :
    demoAccount = (demoConf ["example.org:443"] 30).Account
      ∧ "ops@example.org" = (demoConf ["example.org:443"] 30).Alert.Email
      ∧ "" = ""
      ∧ ∃ host ∈ (demoConf ["example.org:443"] 30).SSLCheck.Hosts, ∃ dialIx clockIx state,
          (demoEnv (dialAlways [[{ NotAfter := day 19742 }]]) (day 19723) smtpOk).tlsDial
              dialIx host = some state
            ∧ ∃ chain ∈ state.VerifiedChains, ∃ cert ∈ chain,
                expiresSoon (demoConf ["example.org:443"] 30)
                    ((demoEnv (dialAlways [[{ NotAfter := day 19742 }]]) (day 19723)
                      smtpOk).timeNow clockIx) cert = true
                  ∧ "SSL Certificate for example.org:443 expires soon - 1705708800000000000"
                      = "SSL Certificate for " ++ host ++ " expires soon - "
                        ++ (demoEnv (dialAlways [[{ NotAfter := day 19742 }]]) (day 19723)
                            smtpOk).formatTime cert.NotAfter :=
  CheckSSL_alert_content (demoEnv (dialAlways [[{ NotAfter := day 19742 }]]) (day 19723) smtpOk)
    (demoConf ["example.org:443"] 30) World.start demoAccount
    { To := "ops@example.org",
      Subject := "SSL Certificate for example.org:443 expires soon - 1705708800000000000",
      Body := "" }
    (by decide)

/-! ## A failed send stops the process -/

theorem FailStop.refl (w : World) (hw : w.halted = none) : FailStop w w :=
  ⟨[], by simp, Or.inl ⟨by simp [hw], fun e he => by cases he⟩⟩

theorem FailStop.trans {a b c : World} (hab : FailStop a b) (hb : b.halted = none)
    (hbc : FailStop b c) : FailStop a c := by
  obtain ⟨new1, t1, o1⟩ := hab
  obtain ⟨new2, t2, o2⟩ := hbc
  have clean1 : ∀ e ∈ new1, Event.isFailedSend e = false := by
    rcases o1 with ⟨_, h⟩ | ⟨h, _⟩
    · exact h
    · rw [hb] at h; cases h
  refine ⟨new1 ++ new2, by rw [t2, t1, List.append_assoc], ?_⟩
  rcases o2 with ⟨hne, clean2⟩ | ⟨hex, pre, call, err, hnew, cleanPre⟩
  · left
    refine ⟨hne, ?_⟩
    intro e he
    rcases List.mem_append.mp he with he | he
    · exact clean1 e he
    · exact clean2 e he
  · right
    refine ⟨hex, new1 ++ pre, call, err, by rw [hnew, List.append_assoc], ?_⟩
    intro e he
    rcases List.mem_append.mp he with he | he
    · exact clean1 e he
    · exact cleanPre e he

theorem FailStop.print (w : World) (text : String) (hw : w.halted = none) :
    FailStop w (w.print text) :=
  ⟨[Event.stdout text], rfl, Or.inl ⟨by simp [World.print, World.emit, hw], by
    intro e he
    rw [List.mem_singleton.mp he]
    rfl⟩⟩

theorem SendEmail_failStop (env : Env) (sender : Account) (email : Email) (w : World)
    (hw : w.halted = none) : FailStop w (SendEmail env sender email w) := by
  cases herr : env.smtpSendMail w.sends
      { addr := sender.Server ++ ":" ++ toString sender.Port,
        auth := { identity := "", username := sender.Email, password := sender.Password,
                  host := sender.Server },
        sender := sender.Email, to_ := [email.To],
        msg := "To: " ++ email.To ++ "\r\nSubject: " ++ email.Subject ++ "\r\n\r\n"
                ++ email.Body } with
  | none =>
    refine ⟨[Event.sendEmail sender email,
             Event.smtpSendMail
               { addr := sender.Server ++ ":" ++ toString sender.Port,
                 auth := { identity := "", username := sender.Email,
                           password := sender.Password, host := sender.Server },
                 sender := sender.Email, to_ := [email.To],
                 msg := "To: " ++ email.To ++ "\r\nSubject: " ++ email.Subject
                         ++ "\r\n\r\n" ++ email.Body } none,
             Event.stdout "Email sent\n"], ?_, Or.inl ⟨?_, ?_⟩⟩
    · simp [SendEmail, herr, World.emit, World.print]
    · simp [SendEmail, herr, World.emit, World.print, hw]
    · intro e he
      simp only [List.mem_cons, List.mem_singleton, List.not_mem_nil, or_false] at he
      rcases he with he | he | he <;> rw [he] <;> rfl
  | some err =>
    refine ⟨[Event.sendEmail sender email,
             Event.smtpSendMail
               { addr := sender.Server ++ ":" ++ toString sender.Port,
                 auth := { identity := "", username := sender.Email,
                           password := sender.Password, host := sender.Server },
                 sender := sender.Email, to_ := [email.To],
                 msg := "To: " ++ email.To ++ "\r\nSubject: " ++ email.Subject
                         ++ "\r\n\r\n" ++ email.Body } (some err),
             Event.logFatal ("fail: " ++ err)], ?_, Or.inr ⟨?_, ?_⟩⟩
    · simp [SendEmail, herr, World.emit, World.halt]
    · simp [SendEmail, herr, World.emit, World.halt]
    · refine ⟨[Event.sendEmail sender email], _, err, rfl, ?_⟩
      intro e he
      rw [List.mem_singleton.mp he]
      rfl

theorem checkCert_failStop (env : Env) (conf : Config) (host : String) (now : Time)
    (cert : Certificate) (w : World) (hw : w.halted = none) :
    FailStop w (checkCert env conf host now cert w) := by
  unfold checkCert
  by_cases h : expiresSoon conf now cert = true
  · simp only [h, if_true]
    exact (FailStop.print w _ hw).trans (by simp [World.print, World.emit, hw])
      (SendEmail_failStop env _ _ _ (by simp [World.print, World.emit, hw]))
  · simp only [h]
    exact FailStop.print w _ hw

theorem certLoop_failStop (env : Env) (conf : Config) (host : String) (now : Time)
    (chain : List Certificate) :
    ∀ w : World, w.halted = none → FailStop w (certLoop env conf host now chain w) := by
  induction chain with
  | nil => intro w hw; exact FailStop.refl w hw
  | cons cert rest ih =>
    intro w hw
    have h1 := checkCert_failStop env conf host now cert w hw
    cases hh : (checkCert env conf host now cert w).halted with
    | some halt => simp only [certLoop, hh]; exact h1
    | none => simp only [certLoop, hh]; exact h1.trans hh (ih _ hh)

theorem chainLoop_failStop (env : Env) (conf : Config) (host : String) (now : Time)
    (chains : List (List Certificate)) :
    ∀ w : World, w.halted = none → FailStop w (chainLoop env conf host now chains w) := by
  induction chains with
  | nil => intro w hw; exact FailStop.refl w hw
  | cons chain rest ih =>
    intro w hw
    have h1 := certLoop_failStop env conf host now chain w hw
    cases hh : (certLoop env conf host now chain w).halted with
    | some halt => simp only [chainLoop, hh]; exact h1
    | none => simp only [chainLoop, hh]; exact h1.trans hh (ih _ hh)

theorem checkHost_failStop (env : Env) (conf : Config) (host : String) (w : World)
    (hw : w.halted = none) : FailStop w (checkHost env conf host w) := by
  have hpre : FailStop w
      { trace := w.trace ++ [Event.stdout ("Checking SSL for " ++ host ++ "\n")]
                  ++ [Event.tlsDial host (env.tlsDial w.dials host).isSome],
        dials := w.dials + 1, clockReads := w.clockReads + 1, sends := w.sends,
        halted := none } :=
    ⟨[Event.stdout ("Checking SSL for " ++ host ++ "\n"),
      Event.tlsDial host (env.tlsDial w.dials host).isSome], by simp,
      Or.inl ⟨by simp, by
        intro e he
        simp only [List.mem_cons, List.mem_singleton, List.not_mem_nil, or_false] at he
        rcases he with he | he <;> rw [he] <;> rfl⟩⟩
  cases hd : env.tlsDial w.dials host with
  | none =>
    refine ⟨[Event.stdout ("Checking SSL for " ++ host ++ "\n"), Event.tlsDial host false],
      ?_, Or.inl ⟨?_, ?_⟩⟩
    · simp [checkHost, hd, World.print, World.emit, World.halt]
    · simp [checkHost, hd, World.print, World.emit, World.halt]
    · intro e he
      simp only [List.mem_cons, List.mem_singleton, List.not_mem_nil, or_false] at he
      rcases he with he | he <;> rw [he] <;> rfl
  | some state =>
    have hloop := chainLoop_failStop env conf host (env.timeNow w.clockReads)
      state.VerifiedChains
      { trace := w.trace ++ [Event.stdout ("Checking SSL for " ++ host ++ "\n")]
                  ++ [Event.tlsDial host (env.tlsDial w.dials host).isSome],
        dials := w.dials + 1, clockReads := w.clockReads + 1, sends := w.sends,
        halted := none } rfl
    have hall := hpre.trans rfl hloop
    simpa [checkHost, hd, World.print, World.emit, hw] using hall

theorem hostLoop_failStop (env : Env) (conf : Config) (hosts : List String) :
    ∀ w : World, w.halted = none → FailStop w (hostLoop env conf hosts w) := by
  induction hosts with
  | nil => intro w hw; exact FailStop.refl w hw
  | cons host rest ih =>
    intro w hw
    have h1 := checkHost_failStop env conf host w hw
    cases hh : (checkHost env conf host w).halted with
    | some halt => simp only [hostLoop, hh]; exact h1
    | none => simp only [hostLoop, hh]; exact h1.trans hh (ih _ hh)

/-- In a list whose last two entries are a failed send and its `log.Fatal`,
with no failed send before them, a failed send is followed by exactly the
`log.Fatal` entry. -/
theorem after_failed_send (pre before after : List Event) (call call' : SendMailCall)
    (err err' : String)
    (clean : ∀ e ∈ pre, Event.isFailedSend e = false)
    (h : pre ++ [Event.smtpSendMail call (some err), Event.logFatal ("fail: " ++ err)]
          = before ++ Event.smtpSendMail call' (some err') :: after) :
    after = [Event.logFatal ("fail: " ++ err')] := by
  induction pre generalizing before with
  | nil =>
    cases before with
    | nil =>
      simp only [List.nil_append, List.cons.injEq, Event.smtpSendMail.injEq,
        Option.some.injEq] at h
      obtain ⟨⟨_, herr⟩, hafter⟩ := h
      rw [← hafter, herr]
    | cons b before =>
      cases before with
      | nil => simp at h
      | cons b' before => cases before <;> simp at h
  | cons p pre ih =>
    cases before with
    | nil =>
      simp only [List.cons_append, List.nil_append, List.cons.injEq] at h
      have hp := clean p (List.mem_cons_self _ _)
      rw [h.1] at hp
      simp [Event.isFailedSend] at hp
    | cons b before =>
      simp only [List.cons_append, List.cons.injEq] at h
      exact ih before (fun e he => clean e (List.mem_cons_of_mem _ he)) h.2

/-- C3, as the code has it: in every `CheckSSL` cycle, when `smtp.SendMail`
returns an error inside `SendEmail`, the only thing the process does
afterwards is the `log.Fatal` of that error, which stops it with exit status
1: no later alert of the cycle is attempted. -/
theorem send_failure_stops_the_process (env : Env) (conf : Config) (w : World)
    (before after : List Event) (call : SendMailCall) (err : String)
    (hw : w.halted = none)
    (hsplit : (CheckSSL env conf w).trace
        = w.trace ++ (before ++ Event.smtpSendMail call (some err) :: after)) :
    after = [Event.logFatal ("fail: " ++ err)]
      ∧ (CheckSSL env conf w).halted = some Halt.exit1
      ∧ sendEmailCalls after = [] := by
  obtain ⟨new, ht, o⟩ := hostLoop_failStop env conf conf.SSLCheck.Hosts w hw
  have hnew : new = before ++ Event.smtpSendMail call (some err) :: after := by
    have : w.trace ++ new = w.trace ++ (before ++ Event.smtpSendMail call (some err) :: after) := by
      rw [← ht]; exact hsplit
    exact List.append_cancel_left this
  rcases o with ⟨_, clean⟩ | ⟨hex, pre, call0, err0, hpre, cleanPre⟩
  · have hbad := clean (Event.smtpSendMail call (some err)) (by rw [hnew]; simp)
    simp [Event.isFailedSend] at hbad
  · have hafter := after_failed_send pre before after call0 call err0 err cleanPre
      (by rw [← hpre, hnew])
    exact ⟨hafter, hex, by rw [hafter]; rfl⟩

/-- Witness of C3: the first send of a cycle fails; the `log.Fatal` is all
that follows and the process has exited. -/
theorem send_failure_stops_the_process_witness :
    [Event.logFatal "fail: connection refused"]
        = [Event.logFatal ("fail: " ++ "connection refused")]
      ∧ (CheckSSL (demoEnv (dialAlways [[{ NotAfter := day 19724 }, { NotAfter := day 19724 }]])
            (day 19723) smtpFirstFails) (demoConf ["example.org:443"] 30) World.start).halted
          = some Halt.exit1
      ∧ sendEmailCalls [Event.logFatal "fail: connection refused"] = [] :=
  send_failure_stops_the_process
    (demoEnv (dialAlways [[{ NotAfter := day 19724 }, { NotAfter := day 19724 }]])
      (day 19723) smtpFirstFails)
    (demoConf ["example.org:443"] 30) World.start
    [Event.stdout "Checking SSL for example.org:443\n",
     Event.tlsDial "example.org:443" true,
     Event.stdout "=== SSL expires soon, expires: 1704153600000000000 ===\n",
     Event.sendEmail demoAccount
       { To := "ops@example.org",
         Subject := "SSL Certificate for example.org:443 expires soon - 1704153600000000000",
         Body := "" }]
    [Event.logFatal "fail: connection refused"]
    demoCall "connection refused" rfl (by decide)

/-- C3 fails as stated: two certificates of one chain both trigger an alert,
the send of the first fails, and the second alert is never attempted: the
cycle makes one `SendEmail` call and one `smtp.SendMail` call, and the
process has exited through `log.Fatal`. -/
theorem first_send_failure_skips_second_alert :
    expiresSoon (demoConf ["example.org:443"] 30) (day 19723) { NotAfter := day 19724 } = true
      ∧ expiresSoon (demoConf ["example.org:443"] 30) (day 19723) { NotAfter := day 19730 } = true
      ∧ (CheckSSL (demoEnv (dialAlways [[{ NotAfter := day 19724 }, { NotAfter := day 19730 }]])
            (day 19723) smtpFirstFails) (demoConf ["example.org:443"] 30) World.start).alerts
          = [(demoAccount,
              { To := "ops@example.org",
                Subject := "SSL Certificate for example.org:443 expires soon - 1704153600000000000",
                Body := "" })]
      ∧ (CheckSSL (demoEnv (dialAlways [[{ NotAfter := day 19724 }, { NotAfter := day 19730 }]])
            (day 19723) smtpFirstFails) (demoConf ["example.org:443"] 30) World.start).sends = 1
      ∧ (CheckSSL (demoEnv (dialAlways [[{ NotAfter := day 19724 }, { NotAfter := day 19730 }]])
            (day 19723) smtpFirstFails) (demoConf ["example.org:443"] 30) World.start).halted
          = some Halt.exit1 := by
  decide

/-! ## A failed dial -/

/-- C4 on the code: with hosts `[A, B, C]` where the dial to `A` fails, the
cycle stops at `A` with a nil pointer dereference: `B` and `C` are never
dialled and the alert that the certificate of `B`, which expires the next
day, would get when `B` is checked is never sent. -/
theorem dial_failure_aborts_cycle :
    CheckSSL (demoEnv (dialFirstFails [[{ NotAfter := day 19724 }]]) (day 19723) smtpOk)
        (demoConf ["a.example.org:443", "b.example.org:443", "c.example.org:443"] 30)
        World.start
      = { trace := [Event.stdout "Checking SSL for a.example.org:443\n",
                    Event.tlsDial "a.example.org:443" false],
          dials := 1, clockReads := 1, sends := 0, halted := some Halt.nilDereference }
      ∧ ownAlerts (demoEnv (dialFirstFails [[{ NotAfter := day 19724 }]]) (day 19723) smtpOk)
          (demoConf ["a.example.org:443", "b.example.org:443", "c.example.org:443"] 30)
          1 1 "b.example.org:443"
        = [(demoAccount,
            { To := "ops@example.org",
              Subject := "SSL Certificate for b.example.org:443 expires soon - 1704153600000000000",
              Body := "" })] := by
  decide

end Monitor
